import Mathlib

/-!
Verification of the quad-tree tile-paging controller declared in
`WhirlyGlobeSrc/WhirlyGlobeLib/include/core/QuadDisplayController.h`.

The header declares three collaborator contracts (`QuadDataStructure`,
`QuadLoader`, `QuadDisplayControllerAdapter`) and the orchestrating
`QuadDisplayController`.  The inline member functions of the header
(`QuadLoader`'s constructor and `init`, the controller's
`setMinImportance` / `setMaxTiles` / `setZoom`) are embedded directly
from the source.  The bodies of `viewUpdate`, `evalStep`, the callbacks,
`refresh`, and the `Quadtree` / candidate-set machinery live in
translation units that are not part of the sources, so those parts are
modelled from the specification, as marked on each definition.

C++ `float`/`double` values (importance scores, time intervals,
distances) are embedded as rationals `ℚ`: no floating-point rounding is
relevant to any property proved here, only comparisons and arithmetic on
the stored values.  Pointers are embedded as `Option` of an address.
-/

namespace WhirlyKit

/-- `Quadtree::Identifier`: a quad-tree cell address `(level, x, y)`.
Modelled from the spec: `Quadtree.h` is not among the sources; the spec
fixes the addressing scheme `(level, x, y)` with `x, y` integer tile
coordinates and the four children of `(level, x, y)` at
`(level+1, 2x, 2y) … (level+1, 2x+1, 2y+1)`. -/
structure Identifier where
  level : Nat
  x : Nat
  y : Nat
deriving DecidableEq, Repr

/-- Tie-break order on identifiers: lexicographic on `(level, x, y)`.
Modelled from the spec: the candidate set breaks importance ties "by
identifier (deterministic total order)". -/
def Identifier.tieLE (a b : Identifier) : Prop :=
  a.level < b.level ∨
    (a.level = b.level ∧ (a.x < b.x ∨ (a.x = b.x ∧ a.y ≤ b.y)))

instance : DecidableRel Identifier.tieLE := fun a b => by
  unfold Identifier.tieLE; infer_instance

/-- `Quadtree::NodeInfo` as used by the candidate set: the identifier
together with its importance score.  Modelled from the spec: NodeInfo is
`{identifier, bounding box, importance, state}`; the bounding box plays
no role in the ordering or budget properties and the state is tracked
separately by each model below. -/
structure NodeInfo where
  ident : Identifier
  importance : ℚ
deriving DecidableEq, Repr

/-- The strict-weak order of `QuadNodeInfoSet`
(`std::set<Quadtree::NodeInfo>`, `QuadDisplayController.h:33`), read as a
"comes no later than" relation on set elements.  Modelled from the spec:
"sorted by importance descending, ties broken by identifier". -/
def nodeLE (a b : NodeInfo) : Prop :=
  b.importance < a.importance ∨
    (a.importance = b.importance ∧ a.ident.tieLE b.ident)

instance : DecidableRel nodeLE := fun a b => by
  unfold nodeLE; infer_instance

theorem Identifier.tieLE_refl (a : Identifier) : a.tieLE a := by
  unfold Identifier.tieLE; omega

theorem Identifier.tieLE_total (a b : Identifier) : a.tieLE b ∨ b.tieLE a := by
  unfold Identifier.tieLE; omega

theorem Identifier.tieLE_trans {a b c : Identifier}
    (hab : a.tieLE b) (hbc : b.tieLE c) : a.tieLE c := by
  unfold Identifier.tieLE at *; omega

theorem Identifier.tieLE_antisymm {a b : Identifier}
    (hab : a.tieLE b) (hba : b.tieLE a) : a = b := by
  unfold Identifier.tieLE at *
  rcases a with ⟨al, ax, ay⟩; rcases b with ⟨bl, bx, by'⟩
  simp_all only [Identifier.mk.injEq]
  omega

theorem nodeLE_total (a b : NodeInfo) : nodeLE a b ∨ nodeLE b a := by
  unfold nodeLE
  rcases lt_trichotomy a.importance b.importance with h | h | h
  · exact Or.inr (Or.inl h)
  · rcases Identifier.tieLE_total a.ident b.ident with ht | ht
    · exact Or.inl (Or.inr ⟨h, ht⟩)
    · exact Or.inr (Or.inr ⟨h.symm, ht⟩)
  · exact Or.inl (Or.inl h)

theorem nodeLE_trans {a b c : NodeInfo}
    (hab : nodeLE a b) (hbc : nodeLE b c) : nodeLE a c := by
  unfold nodeLE at *
  rcases hab with h1 | ⟨h1, t1⟩
  · rcases hbc with h2 | ⟨h2, _⟩
    · exact Or.inl (h2.trans h1)
    · exact Or.inl (h2 ▸ h1)
  · rcases hbc with h2 | ⟨h2, t2⟩
    · exact Or.inl (h1 ▸ h2)
    · exact Or.inr ⟨h1.trans h2, Identifier.tieLE_trans t1 t2⟩

theorem nodeLE_antisymm {a b : NodeInfo}
    (hab : nodeLE a b) (hba : nodeLE b a) : a = b := by
  unfold nodeLE at *
  rcases hab with h1 | ⟨h1, t1⟩
  · rcases hba with h2 | ⟨h2, _⟩
    · exact absurd (h1.trans h2) (lt_irrefl _)
    · exact absurd (h2 ▸ h1) (lt_irrefl _)
  · rcases hba with h2 | ⟨h2, t2⟩
    · exact absurd (h1 ▸ h2) (lt_irrefl _)
    · cases a; cases b
      simp only [NodeInfo.mk.injEq]
      exact ⟨Identifier.tieLE_antisymm t1 t2, h1⟩

instance : IsTotal NodeInfo nodeLE := ⟨nodeLE_total⟩
instance : IsTrans NodeInfo nodeLE := ⟨fun _ _ _ => nodeLE_trans⟩

/-- Building `nodesForEval` by inserting a batch of `NodeInfo` entries
into the ordered container, embedded as insertion into an
order-maintained list.  Modelled from the spec: the candidate set is "an
ordered container of NodeInfo, sorted by importance descending, ties
broken by identifier"; popping repeatedly returns entries in container
order. -/
def buildCandidateSet (l : List NodeInfo) : List NodeInfo :=
  l.insertionSort nodeLE

/-- The sequence of importances obtained by popping every entry of a
candidate set in order. -/
def popImportances (l : List NodeInfo) : List ℚ :=
  (buildCandidateSet l).map NodeInfo.importance

theorem nodeLE_imp_ge {a b : NodeInfo} (h : nodeLE a b) :
    b.importance ≤ a.importance := by
  unfold nodeLE at h
  rcases h with h | ⟨h, _⟩
  · exact le_of_lt h
  · exact le_of_eq h.symm

/-- C1.  The candidate set (`nodesForEval : QuadNodeInfoSet`) is ordered
by importance descending with ties broken by identifier: inserting any
batch of nodes and popping them all yields a non-increasing importance
sequence, and the underlying order is a deterministic total order
(total, transitive, antisymmetric). -/
theorem candidateSet_order_spec :
    (∀ l : List NodeInfo, List.Sorted nodeLE (buildCandidateSet l)) ∧
    (∀ l : List NodeInfo, (popImportances l).Sorted (fun p q => q ≤ p)) ∧
    (∀ a b : NodeInfo, nodeLE a b ∨ nodeLE b a) ∧
    (∀ a b : NodeInfo, nodeLE a b → nodeLE b a → a = b) := by
  refine ⟨fun l => List.sorted_insertionSort nodeLE l, fun l => ?_,
    nodeLE_total, fun _ _ => nodeLE_antisymm⟩
  have hs : List.Sorted nodeLE (buildCandidateSet l) :=
    List.sorted_insertionSort nodeLE l
  unfold popImportances
  exact List.pairwise_map.mpr (hs.imp fun h => nodeLE_imp_ge h)

/-- Witness for `candidateSet_order_spec`: its antisymmetry component at
a concrete pair of nodes. -/
theorem candidateSet_order_spec_witness :
    nodeLE ⟨⟨1, 0, 0⟩, 2⟩ ⟨⟨1, 0, 0⟩, 2⟩ ∧
      (⟨⟨1, 0, 0⟩, 2⟩ : NodeInfo) = ⟨⟨1, 0, 0⟩, 2⟩ :=
  ⟨by decide, candidateSet_order_spec.2.2.2 ⟨⟨1, 0, 0⟩, 2⟩ ⟨⟨1, 0, 0⟩, 2⟩
    (by decide) (by decide)⟩

/-! ## QuadLoader base-object state (header lines 76-133)

The `QuadLoader` base class stores exactly two data members, `control`
and `scene` (lines 130-132).  Its default constructor (line 79) and
default `init` (line 83) are inline in the header and are embedded
directly.  Pointers are embedded as `Option` of an address. -/

/-- The data members of the `QuadLoader` base class: `control` and
`scene` (header lines 130-132). -/
structure QuadLoaderState where
  control : Option Nat
  scene : Option Nat
deriving DecidableEq, Repr

/-- `QuadLoader() : control(NULL), scene(NULL) { }` (header line 79). -/
def QuadLoaderState.ctor : QuadLoaderState :=
  { control := none, scene := none }

/-- `init(inControl, inScene) { control = inControl; scene = inScene; }`
(header line 83). -/
def QuadLoaderState.init (l : QuadLoaderState) (inControl inScene : Nat) :
    QuadLoaderState :=
  { l with control := some inControl, scene := some inScene }

/-- C10.  A default-constructed `QuadLoader` has `control == NULL` and
`scene == NULL`; after `init(controller, scene)` both members equal the
passed pointers, and `init` writes no other base-object state (the base
class holds no other data member, so the result is fully determined by
the two arguments). -/
theorem quadLoader_ctor_init_spec :
    QuadLoaderState.ctor.control = none ∧
    QuadLoaderState.ctor.scene = none ∧
    ∀ (l : QuadLoaderState) (c s : Nat),
      (l.init c s).control = some c ∧ (l.init c s).scene = some s ∧
      l.init c s = { control := some c, scene := some s } :=
  ⟨rfl, rfl, fun _ _ _ => ⟨rfl, rfl, rfl⟩⟩

/-! ## Controller budget-counter setters (header lines 181-186)

`setMinImportance`, `setMaxTiles` and `setZoom` are inline in the header
and are embedded directly.  The `Quadtree` class itself is not among the
sources, so the configuration it receives is modelled from the spec. -/

/-- The configuration the quad-tree holds.  Modelled from the spec:
`Quadtree.h` is not among the sources; the spec lists the budget
counters (`maxTiles`, `minImportance`, `minZoom`/`maxZoom`) as
"controller-owned configuration, pushed down into the quad-tree
whenever changed", and the header calls its `setMinImportance` /
`setMaxNodes` entry points. -/
structure QuadtreeConfig where
  minImportance : ℚ
  maxNodes : Int
  minZoom : Int
  maxZoom : Int
deriving DecidableEq, Repr

/-- `Quadtree::setMinImportance`.  Modelled from the spec: records the
new relevance floor. -/
def QuadtreeConfig.setMinImportance (q : QuadtreeConfig) (v : ℚ) :
    QuadtreeConfig :=
  { q with minImportance := v }

/-- `Quadtree::setMaxNodes`.  Modelled from the spec: records the new
resident-node ceiling. -/
def QuadtreeConfig.setMaxNodes (q : QuadtreeConfig) (n : Int) :
    QuadtreeConfig :=
  { q with maxNodes := n }

/-- The controller fields touched by the budget setters (header lines
275-277) together with the `quadtree` pointer (line 267), which is null
until `init` runs. -/
structure ControllerConfig where
  minImportance : ℚ
  maxTiles : Int
  minZoom : Int
  maxZoom : Int
  quadtree : Option QuadtreeConfig
deriving DecidableEq, Repr

/-- `setMinImportance` (header line 181):
`minImportance = newMinImport; if (quadtree) quadtree->setMinImportance(newMinImport);` -/
def ControllerConfig.setMinImportance (c : ControllerConfig) (v : ℚ) :
    ControllerConfig :=
  { c with minImportance := v,
           quadtree := match c.quadtree with
             | none => none
             | some q => some (q.setMinImportance v) }

/-- `setMaxTiles` (header line 184):
`maxTiles = newMaxTiles; if (quadtree) quadtree->setMaxNodes(maxTiles);` -/
def ControllerConfig.setMaxTiles (c : ControllerConfig) (n : Int) :
    ControllerConfig :=
  { c with maxTiles := n,
           quadtree := match c.quadtree with
             | none => none
             | some q => some (q.setMaxNodes n) }

/-- `setZoom` (header line 186):
`minZoom = inMinZoom;  maxZoom = inMaxZoom;` — no call into the
quad-tree. -/
def ControllerConfig.setZoom (c : ControllerConfig) (lo hi : Int) :
    ControllerConfig :=
  { c with minZoom := lo, maxZoom := hi }

/-- A concrete controller with a live quad-tree, for the `setZoom`
counterexample and witnesses. -/
def cfgLive : ControllerConfig :=
  { minImportance := 0, maxTiles := 128, minZoom := 0, maxZoom := 16,
    quadtree := some { minImportance := 0, maxNodes := 128,
                       minZoom := 0, maxZoom := 16 } }

/-- C7 counterexample.  `setZoom` does not push the new zoom range into
the quad-tree: starting from `cfgLive` (quad-tree zoom range `[0,16]`),
`setZoom 3 7` sets the controller's `minZoom` to `3` while the
quad-tree still reports `0`, so the quad-tree's configuration does not
agree with the controller's field after the setter returns. -/
theorem setZoom_does_not_push_cex :
    (cfgLive.setZoom 3 7).minZoom = 3 ∧
    ((cfgLive.setZoom 3 7).quadtree.map QuadtreeConfig.minZoom = some 0) ∧
    ¬ ((cfgLive.setZoom 3 7).quadtree.map QuadtreeConfig.minZoom =
        some ((cfgLive.setZoom 3 7).minZoom)) := by
  refine ⟨rfl, rfl, ?_⟩
  intro h
  simp only [ControllerConfig.setZoom, cfgLive, Option.map] at h
  exact absurd (Option.some.inj h) (by decide)

/-- C7 amended.  `setMinImportance` and `setMaxTiles` record the new
value in the controller's field and push it into the quad-tree whenever
one exists, so the quad-tree agrees with the controller afterwards;
`setZoom` records `minZoom`/`maxZoom` in the controller's fields only
and leaves the quad-tree configuration unchanged. -/
theorem budget_setters_push_spec :
    (∀ (c : ControllerConfig) (v : ℚ),
      (c.setMinImportance v).minImportance = v ∧
      ∀ q, (c.setMinImportance v).quadtree = some q → q.minImportance = v) ∧
    (∀ (c : ControllerConfig) (n : Int),
      (c.setMaxTiles n).maxTiles = n ∧
      ∀ q, (c.setMaxTiles n).quadtree = some q → q.maxNodes = n) ∧
    (∀ (c : ControllerConfig) (lo hi : Int),
      (c.setZoom lo hi).minZoom = lo ∧ (c.setZoom lo hi).maxZoom = hi ∧
      (c.setZoom lo hi).quadtree = c.quadtree) := by
  refine ⟨fun c v => ⟨rfl, fun q hq => ?_⟩,
          fun c n => ⟨rfl, fun q hq => ?_⟩,
          fun c lo hi => ⟨rfl, rfl, rfl⟩⟩
  · rcases c with ⟨_, _, _, _, _ | q0⟩
    · exact absurd hq (by simp [ControllerConfig.setMinImportance])
    · simp only [ControllerConfig.setMinImportance, Option.some.injEq] at hq
      subst hq; rfl
  · rcases c with ⟨_, _, _, _, _ | q0⟩
    · exact absurd hq (by simp [ControllerConfig.setMaxTiles])
    · simp only [ControllerConfig.setMaxTiles, Option.some.injEq] at hq
      subst hq; rfl

/-- Witness for `budget_setters_push_spec`: pushing `minImportance := 5`
through `cfgLive` updates the live quad-tree. -/
theorem budget_setters_push_spec_witness :
    (cfgLive.setMinImportance 5).quadtree =
      some (QuadtreeConfig.setMinImportance
        { minImportance := 0, maxNodes := 128, minZoom := 0, maxZoom := 16 } 5) ∧
    (QuadtreeConfig.setMinImportance
        { minImportance := 0, maxNodes := 128, minZoom := 0, maxZoom := 16 } 5).minImportance
      = 5 :=
  ⟨rfl, (budget_setters_push_spec.1 cfgLive 5).2 _ rfl⟩

/-- C9.  Calling `setMinImportance` or `setMaxTiles` before the
quad-tree exists is safe: each setter records the new value in the
controller's own field, and with a null `quadtree` pointer it leaves the
pointer null and dereferences nothing (both setters are total
functions). -/
theorem setters_null_quadtree_safe (c : ControllerConfig) (v : ℚ) (n : Int)
    (h : c.quadtree = none) :
    (c.setMinImportance v).minImportance = v ∧
    (c.setMinImportance v).quadtree = none ∧
    (c.setMaxTiles n).maxTiles = n ∧
    (c.setMaxTiles n).quadtree = none := by
  rcases c with ⟨_, _, _, _, qt⟩
  cases h
  exact ⟨rfl, rfl, rfl, rfl⟩

/-- A controller before `init`: null quad-tree pointer. -/
def cfgPreInit : ControllerConfig :=
  { minImportance := 0, maxTiles := 128, minZoom := 0, maxZoom := 16,
    quadtree := none }

/-- Witness for `setters_null_quadtree_safe` at a pre-`init`
controller. -/
theorem setters_null_quadtree_safe_witness :
    cfgPreInit.quadtree = none ∧
    (cfgPreInit.setMinImportance 5).minImportance = 5 ∧
    (cfgPreInit.setMinImportance 5).quadtree = none ∧
    (cfgPreInit.setMaxTiles 7).maxTiles = 7 ∧
    (cfgPreInit.setMaxTiles 7).quadtree = none :=
  ⟨rfl, setters_null_quadtree_safe cfgPreInit 5 7 rfl⟩

/-! ## Resident budget enforcement (C2)

Modelled from the spec: the `Quadtree`'s admission/eviction engine
(`Quadtree.h`/`.cpp`) is not among the sources.  The spec's admission
rule: "a candidate may be promoted to Loading only if either (resident
count < maxTiles) or (its importance exceeds the importance of the
current lowest-importance resident node, which is then marked for
eviction/unload first).  Ties (equal importance) favor the
already-resident node."  A promoted node occupies its budget slot from
the moment of admission, so the resident list below is the budgeted
set. -/

/-- The lowest-importance node of the resident set (the eviction
candidate).  Modelled from the spec: "the current lowest-importance
resident node". -/
def lowestResident : List NodeInfo → Option NodeInfo
  | [] => none
  | n :: rest =>
    match lowestResident rest with
    | none => some n
    | some m => if m.importance < n.importance then some m else some n

/-- Admission of candidate `c` under ceiling `maxTiles`.  Modelled from
the spec: admit freely below the ceiling; at the ceiling admit only if
`c` strictly beats the lowest-importance resident, which is evicted
first; otherwise (including importance ties) reject `c` and keep the
residents. -/
def admitNode (maxTiles : Nat) (res : List NodeInfo) (c : NodeInfo) :
    List NodeInfo :=
  if res.length < maxTiles then c :: res
  else
    match lowestResident res with
    | none => res
    | some m => if m.importance < c.importance then c :: res.erase m else res

/-- Explicit eviction (pruning / unload) of a resident node.  Modelled
from the spec: a resident node is destroyed when pruned or evicted. -/
def evictNode (res : List NodeInfo) (n : NodeInfo) : List NodeInfo :=
  res.erase n

/-- One admission or eviction, the operations of an evaluation pass that
touch the resident set. -/
inductive TreeOp where
  | admitOp (c : NodeInfo)
  | evictOp (n : NodeInfo)

def applyTreeOp (maxTiles : Nat) (res : List NodeInfo) : TreeOp → List NodeInfo
  | .admitOp c => admitNode maxTiles res c
  | .evictOp n => evictNode res n

/-- Running any sequence of admissions/evictions from an empty resident
set. -/
def runTreeOps (maxTiles : Nat) (ops : List TreeOp) : List NodeInfo :=
  ops.foldl (applyTreeOp maxTiles) []

theorem lowestResident_mem : ∀ {l : List NodeInfo} {m : NodeInfo},
    lowestResident l = some m → m ∈ l := by
  intro l
  induction l with
  | nil => intro m h; simp [lowestResident] at h
  | cons n rest ih =>
    intro m h
    cases hrest : lowestResident rest with
    | none =>
      simp only [lowestResident, hrest] at h
      injection h with h
      subst h
      exact List.mem_cons_self _ _
    | some m' =>
      simp only [lowestResident, hrest] at h
      split at h
      · injection h with h
        subst h
        exact List.mem_cons_of_mem _ (ih hrest)
      · injection h with h
        subst h
        exact List.mem_cons_self _ _

theorem admitNode_length_le (maxTiles : Nat) (res : List NodeInfo)
    (c : NodeInfo) (h : res.length ≤ maxTiles) :
    (admitNode maxTiles res c).length ≤ maxTiles := by
  by_cases hlt : res.length < maxTiles
  · simp only [admitNode, if_pos hlt, List.length_cons]
    omega
  · cases hm : lowestResident res with
    | none =>
      simp only [admitNode, if_neg hlt, hm]
      exact h
    | some m =>
      by_cases himp : m.importance < c.importance
      · simp only [admitNode, if_neg hlt, hm, if_pos himp, List.length_cons]
        have hmem := lowestResident_mem hm
        have hlen := List.length_erase_of_mem hmem
        have hpos : 0 < res.length := List.length_pos_of_mem hmem
        omega
      · simp only [admitNode, if_neg hlt, hm, if_neg himp]
        exact h

theorem applyTreeOp_length_le (maxTiles : Nat) (res : List NodeInfo)
    (op : TreeOp) (h : res.length ≤ maxTiles) :
    (applyTreeOp maxTiles res op).length ≤ maxTiles := by
  cases op with
  | admitOp c => exact admitNode_length_le maxTiles res c h
  | evictOp n =>
    simp only [applyTreeOp, evictNode]
    exact le_trans (List.Sublist.length_le (List.erase_sublist n res)) h

theorem runTreeOps_aux (maxTiles : Nat) :
    ∀ (ops : List TreeOp) (res : List NodeInfo), res.length ≤ maxTiles →
      (ops.foldl (applyTreeOp maxTiles) res).length ≤ maxTiles := by
  intro ops
  induction ops with
  | nil => intro res h; simpa using h
  | cons op rest ih =>
    intro res h
    simp only [List.foldl_cons]
    exact ih _ (applyTreeOp_length_le maxTiles res op h)

/-- C2.  For every sequence of admissions and evictions the resident
count never exceeds `maxTiles`; and at a full budget a candidate whose
importance merely ties the lowest-importance resident is rejected (the
already-resident node is favored, the resident set unchanged). -/
theorem resident_budget_spec :
    (∀ (maxTiles : Nat) (ops : List TreeOp),
       (runTreeOps maxTiles ops).length ≤ maxTiles) ∧
    (∀ (maxTiles : Nat) (res : List NodeInfo) (c m : NodeInfo),
       ¬ res.length < maxTiles →
       lowestResident res = some m →
       c.importance = m.importance →
       admitNode maxTiles res c = res) := by
  constructor
  · intro maxTiles ops
    exact runTreeOps_aux maxTiles ops [] (by simp)
  · intro maxTiles res c m hfull hm htie
    simp only [admitNode, if_neg hfull, hm]
    rw [if_neg (by rw [htie]; exact lt_irrefl _)]

/-- Witness for `resident_budget_spec`: at a full one-tile budget, a
candidate tying the single resident's importance is rejected. -/
theorem resident_budget_spec_witness :
    ¬ ([(⟨⟨0, 0, 0⟩, 1⟩ : NodeInfo)].length < 1) ∧
    lowestResident [⟨⟨0, 0, 0⟩, 1⟩] = some ⟨⟨0, 0, 0⟩, 1⟩ ∧
    admitNode 1 [⟨⟨0, 0, 0⟩, 1⟩] ⟨⟨1, 0, 0⟩, 1⟩ = [⟨⟨0, 0, 0⟩, 1⟩] :=
  ⟨by decide, by decide,
    resident_budget_spec.2 1 [⟨⟨0, 0, 0⟩, 1⟩] ⟨⟨1, 0, 0⟩, 1⟩ ⟨⟨0, 0, 0⟩, 1⟩
      (by decide) (by decide) (by decide)⟩

/-! ## Descent rule (C3)

Modelled from the spec: the evaluation loop's descent logic is in a
translation unit not among the sources.  The spec's descent rule: "a
node's children become candidates only after the parent reaches Loaded
state AND the loader's `canLoadChildrenOfTile` gate returns true for
that parent; otherwise children are withheld from the candidate set."
The loader's gate (`QuadLoader::canLoadChildrenOfTile`, header lines
104-107) is a boolean function of the tile, held fixed over a pass. -/

/-- Node lifecycle states (spec §3: Candidate, Loading, Loaded,
Failed). -/
inductive NodeState where
  | candidate
  | loading
  | loaded
  | failed
deriving DecidableEq, Repr

/-- The four children of a node at the next level (spec §3:
`(2x,2y),(2x+1,2y),(2x,2y+1),(2x+1,2y+1)` at `level+1`). -/
def childrenOf (p : Identifier) : List Identifier :=
  [⟨p.level + 1, 2 * p.x, 2 * p.y⟩, ⟨p.level + 1, 2 * p.x + 1, 2 * p.y⟩,
   ⟨p.level + 1, 2 * p.x, 2 * p.y + 1⟩, ⟨p.level + 1, 2 * p.x + 1, 2 * p.y + 1⟩]

/-- The parent of a node: `level - 1` with halved coordinates; the root
has none (spec §3). -/
def parentOf (n : Identifier) : Option Identifier :=
  match n.level with
  | 0 => none
  | l + 1 => some ⟨l, n.x / 2, n.y / 2⟩

/-- The paging state the descent rule touches: which nodes are Loaded
and which identifiers sit in the candidate set. -/
structure DescentSys where
  isLoaded : Identifier → Bool
  cands : List Identifier

/-- The events of an evaluation pass that touch candidacy: a load
completion, a descent attempt on a parent, and popping the evaluated
head candidate. -/
inductive DescentOp where
  | completeLoad (p : Identifier)
  | tryDescend (p : Identifier)
  | popCand

/-- One step of the descent system.  Modelled from the spec: children
are appended to the candidate set only when the parent is Loaded and
the `canLoadChildrenOfTile` gate holds for it; otherwise they are
withheld. -/
def applyDescentOp (gate : Identifier → Bool) (s : DescentSys) :
    DescentOp → DescentSys
  | .completeLoad p =>
      { s with isLoaded := fun i => if i = p then true else s.isLoaded i }
  | .tryDescend p =>
      if s.isLoaded p && gate p then
        { s with cands := childrenOf p ++ s.cands }
      else s
  | .popCand => { s with cands := s.cands.tail }

def runDescent (gate : Identifier → Bool) (ops : List DescentOp)
    (s : DescentSys) : DescentSys :=
  ops.foldl (applyDescentOp gate) s

def rootIdent : Identifier := ⟨0, 0, 0⟩

/-- Initial paging state: nothing loaded, the root is the only
candidate. -/
def descentInit : DescentSys :=
  { isLoaded := fun _ => false, cands := [rootIdent] }

/-- The C3 invariant: every candidate's parent is Loaded and passes the
descent gate. -/
def descentInv (gate : Identifier → Bool) (s : DescentSys) : Prop :=
  ∀ n ∈ s.cands, ∀ p, parentOf n = some p →
    s.isLoaded p = true ∧ gate p = true

theorem parentOf_childrenOf {p c : Identifier} (hc : c ∈ childrenOf p) :
    parentOf c = some p := by
  rcases p with ⟨l, x, y⟩
  simp only [childrenOf, List.mem_cons, List.mem_singleton,
    List.not_mem_nil, or_false] at hc
  rcases hc with rfl | rfl | rfl | rfl <;>
    · dsimp only [parentOf]
      simp only [Option.some.injEq, Identifier.mk.injEq]
      refine ⟨trivial, ?_, ?_⟩ <;> omega

theorem descentInv_step (gate : Identifier → Bool) (s : DescentSys)
    (op : DescentOp) (h : descentInv gate s) :
    descentInv gate (applyDescentOp gate s op) := by
  cases op with
  | completeLoad p =>
    intro n hn q hq
    rcases h n hn q hq with ⟨hl, hg⟩
    refine ⟨?_, hg⟩
    simp only [applyDescentOp]
    split
    · rfl
    · exact hl
  | tryDescend p =>
    by_cases hguard : s.isLoaded p && gate p
    · simp only [applyDescentOp, if_pos hguard]
      intro n hn q hq
      rcases List.mem_append.mp hn with hchild | hold
      · have hpar := parentOf_childrenOf hchild
        rw [hpar] at hq
        injection hq with hq
        subst hq
        exact ⟨(Bool.and_eq_true _ _).mp hguard |>.1,
               (Bool.and_eq_true _ _).mp hguard |>.2⟩
      · exact h n hold q hq
    · simpa only [applyDescentOp, if_neg hguard] using h
  | popCand =>
    intro n hn q hq
    exact h n ((List.tail_sublist s.cands).subset hn) q hq

theorem descentInv_run (gate : Identifier → Bool) (ops : List DescentOp) :
    ∀ s : DescentSys, descentInv gate s →
      descentInv gate (runDescent gate ops s) := by
  induction ops with
  | nil => intro s h; exact h
  | cons op rest ih =>
    intro s h
    exact ih _ (descentInv_step gate s op h)

theorem descentInv_init (gate : Identifier → Bool) :
    descentInv gate descentInit := by
  intro n hn q hq
  simp only [descentInit, List.mem_singleton] at hn
  subst hn
  simp [parentOf, rootIdent] at hq

/-- C3.  In every state reachable from the initial paging state, a
node is present in the candidate set only if its parent is Loaded and
the loader's `canLoadChildrenOfTile` gate holds for that parent —
children are never candidates while the parent is not Loaded or the
gate returns false for it. -/
theorem descent_gate_spec (gate : Identifier → Bool) (ops : List DescentOp) :
    ∀ n ∈ (runDescent gate ops descentInit).cands, ∀ p, parentOf n = some p →
      (runDescent gate ops descentInit).isLoaded p = true ∧ gate p = true :=
  descentInv_run gate ops descentInit (descentInv_init gate)

/-- Witness for `descent_gate_spec`: after the root loads and descends,
its child `(1,0,0)` is a candidate and the invariant holds for it. -/
theorem descent_gate_spec_witness :
    (⟨1, 0, 0⟩ : Identifier) ∈
      (runDescent (fun _ => true)
        [.completeLoad rootIdent, .tryDescend rootIdent] descentInit).cands ∧
    parentOf ⟨1, 0, 0⟩ = some rootIdent ∧
    (runDescent (fun _ => true)
        [.completeLoad rootIdent, .tryDescend rootIdent]
        descentInit).isLoaded rootIdent = true :=
  ⟨by decide, by decide,
    (descent_gate_spec (fun _ => true)
      [.completeLoad rootIdent, .tryDescend rootIdent]
      ⟨1, 0, 0⟩ (by decide) rootIdent (by decide)).1⟩

/-! ## viewUpdate throttling (C4)

Modelled from the spec: the body of `viewUpdate` (declared at header
line 236) is not among the sources.  The spec: "`viewUpdate(view)`:
throttled — accepted only if elapsed time since the last accepted
update ≥ `viewUpdatePeriod`, OR the camera moved more than
`minUpdateDist`, OR this is the first call (`firstUpdate`); otherwise
the call is a no-op."  Times and distances are rationals; the view
snapshot is abstracted to an index. -/

/-- The controller fields the throttle reads and writes
(`viewUpdatePeriod`, `minUpdateDist`, `firstUpdate`,
`somethingHappened`, the view snapshot — header lines 284-302) plus the
time of the last accepted update. -/
structure ThrottleState where
  viewUpdatePeriod : ℚ
  minUpdateDist : ℚ
  firstUpdate : Bool
  lastUpdateTime : ℚ
  somethingHappened : Bool
  viewSnapshot : Nat
deriving DecidableEq, Repr

/-- Whether a `viewUpdate` call at time `now`, with the camera having
moved `dist` since the last accepted update, is accepted.  Modelled
from the spec's three-way disjunction. -/
def viewUpdateAccepted (s : ThrottleState) (now dist : ℚ) : Bool :=
  s.firstUpdate || decide (s.viewUpdatePeriod ≤ now - s.lastUpdateTime) ||
    decide (s.minUpdateDist < dist)

/-- The `viewUpdate` entry point.  Modelled from the spec: on
acceptance it snapshots the view state, records the update time, clears
`firstUpdate` and sets `somethingHappened`; otherwise it is a no-op. -/
def viewUpdate (s : ThrottleState) (now dist : ℚ) (view : Nat) :
    ThrottleState :=
  if viewUpdateAccepted s now dist then
    { s with firstUpdate := false, lastUpdateTime := now,
             somethingHappened := true, viewSnapshot := view }
  else s

/-- A fresh controller with `viewUpdatePeriod = 1` s and
`minUpdateDist = 0`, for the spec's throttling scenario. -/
def throttleS0 : ThrottleState :=
  { viewUpdatePeriod := 1, minUpdateDist := 0, firstUpdate := true,
    lastUpdateTime := 0, somethingHappened := false, viewSnapshot := 0 }

/-- The state after the first (always accepted) call at `t = 10` s. -/
def throttleS1 : ThrottleState :=
  { viewUpdatePeriod := 1, minUpdateDist := 0, firstUpdate := false,
    lastUpdateTime := 10, somethingHappened := true, viewSnapshot := 1 }

/-- The state after a further accepted call at `t = 11.1` s. -/
def throttleS2 : ThrottleState :=
  { viewUpdatePeriod := 1, minUpdateDist := 0, firstUpdate := false,
    lastUpdateTime := 111 / 10, somethingHappened := true,
    viewSnapshot := 2 }

theorem throttle_first_accepted : viewUpdateAccepted throttleS0 10 0 = true := by
  simp [viewUpdateAccepted, throttleS0]

theorem throttle_s1_eq : viewUpdate throttleS0 10 0 1 = throttleS1 := by
  simp only [viewUpdate, throttle_first_accepted, if_true]
  rfl

theorem throttle_second_rejected :
    viewUpdateAccepted throttleS1 (103 / 10) 0 = false := by
  simp only [viewUpdateAccepted, throttleS1, Bool.false_or,
    Bool.or_eq_false_iff, decide_eq_false_iff_not]
  norm_num

theorem throttle_third_accepted :
    viewUpdateAccepted throttleS1 (111 / 10) 0 = true := by
  simp only [viewUpdateAccepted, throttleS1, Bool.false_or, Bool.or_eq_true,
    decide_eq_true_eq]
  norm_num

theorem throttle_s2_eq : viewUpdate throttleS1 (111 / 10) 0 2 = throttleS2 := by
  simp only [viewUpdate, throttle_third_accepted, if_true]
  rfl

theorem throttle_fourth_accepted :
    viewUpdateAccepted throttleS2 (122 / 10) 0 = true := by
  simp only [viewUpdateAccepted, throttleS2, Bool.false_or, Bool.or_eq_true,
    decide_eq_true_eq]
  norm_num

/-- C4.  A `viewUpdate` call is accepted iff the elapsed time since the
last accepted update reaches `viewUpdatePeriod`, or the camera moved
more than `minUpdateDist`, or `firstUpdate` is set; every other call
leaves the controller state unchanged.  With `viewUpdatePeriod = 1` s
and `minUpdateDist = 0` (camera static): of two calls 0.3 s apart only
the first is accepted and the second is a no-op, while two calls 1.1 s
apart are both accepted. -/
theorem viewUpdate_throttle_spec :
    (∀ (s : ThrottleState) (now dist : ℚ),
       viewUpdateAccepted s now dist = true ↔
         (s.firstUpdate = true ∨ s.viewUpdatePeriod ≤ now - s.lastUpdateTime ∨
           s.minUpdateDist < dist)) ∧
    (∀ (s : ThrottleState) (now dist : ℚ) (view : Nat),
       viewUpdateAccepted s now dist = false → viewUpdate s now dist view = s) ∧
    (viewUpdateAccepted throttleS0 10 0 = true ∧
     viewUpdateAccepted (viewUpdate throttleS0 10 0 1) (103 / 10) 0 = false ∧
     viewUpdate (viewUpdate throttleS0 10 0 1) (103 / 10) 0 2 =
       viewUpdate throttleS0 10 0 1 ∧
     viewUpdateAccepted (viewUpdate throttleS0 10 0 1) (111 / 10) 0 = true ∧
     viewUpdateAccepted
       (viewUpdate (viewUpdate throttleS0 10 0 1) (111 / 10) 0 2)
       (122 / 10) 0 = true) := by
  refine ⟨fun s now dist => ?_, fun s now dist view h => ?_,
    throttle_first_accepted, ?_, ?_, ?_, ?_⟩
  · simp only [viewUpdateAccepted, Bool.or_eq_true, decide_eq_true_eq]
    tauto
  · simp [viewUpdate, h]
  · rw [throttle_s1_eq]; exact throttle_second_rejected
  · rw [throttle_s1_eq]
    simp [viewUpdate, throttle_second_rejected]
  · rw [throttle_s1_eq]; exact throttle_third_accepted
  · rw [throttle_s1_eq, throttle_s2_eq]; exact throttle_fourth_accepted

/-- Witness for `viewUpdate_throttle_spec`: the rejected second call of
the scenario is a no-op, via the theorem's no-op component. -/
theorem viewUpdate_throttle_spec_witness :
    viewUpdateAccepted throttleS1 (103 / 10) 0 = false ∧
    viewUpdate throttleS1 (103 / 10) 0 5 = throttleS1 :=
  ⟨throttle_second_rejected,
    viewUpdate_throttle_spec.2.1 throttleS1 (103 / 10) 0 5
      throttle_second_rejected⟩

/-! ## evalStep and its return value (C5)

Modelled from the spec: the body of `evalStep` (declared at header
lines 238-240) is not among the sources.  Spec §4.4: the loop pops the
highest-importance candidate and dispatches it; it stops when the
candidate set is empty, the loader signals not-ready, or the frame time
budget is exhausted; the step "returns true iff the candidate set is
non-empty or the loader is not yet ready for more".  The frame time
budget is abstracted as fuel (the number of dispatches the available
frame time allows; `greedyMode` is unbounded fuel), and loader
readiness as a function of the number of load requests issued so far
(backpressure on outstanding loads). -/

/-- The state `evalStep` walks over. -/
structure EvalState where
  cands : List NodeInfo
  resident : List NodeInfo
  maxTiles : Nat
  issued : Nat
  readyF : Nat → Bool

/-- Whether the loader will accept another load right now
(`QuadLoader::isReady`, header line 87). -/
def EvalState.ready (s : EvalState) : Bool := s.readyF s.issued

/-- Pop the highest-importance candidate and dispatch it: admission per
the spec's rule (`admitNode`), one load request issued. -/
def dispatchTop (s : EvalState) : EvalState :=
  match s.cands with
  | [] => s
  | c :: rest =>
    { s with cands := rest, resident := admitNode s.maxTiles s.resident c,
             issued := s.issued + 1 }

/-- Why the evaluation loop stopped: candidates exhausted, loader
backpressure, or frame time budget exhausted. -/
inductive StopReason where
  | drained
  | notReady
  | outOfTime
deriving DecidableEq, Repr

/-- The bounded evaluation loop of spec §4.4 step 3. -/
def evalLoop : Nat → EvalState → StopReason × EvalState
  | 0, s =>
    if s.cands.isEmpty then (.drained, s)
    else if !s.ready then (.notReady, s)
    else (.outOfTime, s)
  | fuel + 1, s =>
    if s.cands.isEmpty then (.drained, s)
    else if !s.ready then (.notReady, s)
    else evalLoop fuel (dispatchTop s)

/-- `evalStep`: if the data source's `shouldUpdate` gate is off, stop at
once; otherwise run the loop and report whether more work remains —
after draining, only if the loader is still busy; stopping for
backpressure or for the frame budget always leaves work pending. -/
def evalStep (shouldUpd : Bool) (fuel : Nat) (s : EvalState) :
    Bool × EvalState :=
  if shouldUpd = false then (!s.cands.isEmpty || !s.ready, s)
  else
    match evalLoop fuel s with
    | (.drained, s') => (!s'.ready, s')
    | (.notReady, s') => (true, s')
    | (.outOfTime, s') => (true, s')

theorem evalLoop_cases (fuel : Nat) (s : EvalState) :
    ((evalLoop fuel s).1 = .drained →
        (evalLoop fuel s).2.cands.isEmpty = true) ∧
    ((evalLoop fuel s).1 = .notReady → (evalLoop fuel s).2.ready = false) ∧
    ((evalLoop fuel s).1 = .outOfTime →
        (evalLoop fuel s).2.cands.isEmpty = false ∧
        (evalLoop fuel s).2.ready = true) := by
  induction fuel generalizing s with
  | zero =>
    by_cases hc : s.cands.isEmpty
    · simp [evalLoop, hc]
    · by_cases hr : s.ready
      · simp [evalLoop, hc, hr]
      · simp only [Bool.not_eq_true] at hr
        simp [evalLoop, hc, hr]
  | succ n ih =>
    by_cases hc : s.cands.isEmpty
    · simp [evalLoop, hc]
    · by_cases hr : s.ready
      · simpa [evalLoop, hc, hr] using ih (dispatchTop s)
      · simp only [Bool.not_eq_true] at hr
        simp [evalLoop, hc, hr]

/-- C5.  `evalStep` returns `true` exactly when, in the state it leaves
behind, the candidate set is non-empty or the loader is not yet ready
for more work. -/
theorem evalStep_more_work_spec (shouldUpd : Bool) (fuel : Nat)
    (s : EvalState) :
    (evalStep shouldUpd fuel s).1 =
      (!(evalStep shouldUpd fuel s).2.cands.isEmpty ||
        !(evalStep shouldUpd fuel s).2.ready) := by
  unfold evalStep
  by_cases hu : shouldUpd = false
  · simp [hu]
  · simp only [if_neg hu]
    have hcases := evalLoop_cases fuel s
    rcases h : evalLoop fuel s with ⟨r, s'⟩
    rw [h] at hcases
    cases r with
    | drained =>
      have he : s'.cands.isEmpty = true := hcases.1 rfl
      simp [he]
    | notReady =>
      have hr : s'.ready = false := hcases.2.1 rfl
      simp [hr]
    | outOfTime =>
      have ho := hcases.2.2 rfl
      simp [ho.1, ho.2]

/-! ## Completion callbacks (C6)

Modelled from the spec: the bodies of `tileDidLoad` / `tileDidNotLoad`
(declared at header lines 229/232) and `shutdown` (line 249) are not
among the sources.  Spec §4.6: a callback resolves a Loading node to
Loaded/Failed, notifies the adapter and sets `somethingHappened`; "a
duplicate or out-of-order callback for an identifier not currently
Loading is ignored".  Spec §4.5: `shutdown()` clears the candidate set
and tree, and "any callback arriving after shutdown must be a safe
no-op". -/

/-- The controller state the completion callbacks touch.  `adapterLog`
records adapter notifications (`true` for `tileDidLoad`). -/
structure CallbackState where
  nodes : List (Identifier × NodeState)
  cands : List NodeInfo
  somethingHappened : Bool
  adapterLog : List (Identifier × Bool)
deriving DecidableEq, Repr

/-- Look up a node's lifecycle state in the tree. -/
def lookupNode (s : CallbackState) (id : Identifier) : Option NodeState :=
  (s.nodes.find? (fun p => decide (p.1 = id))).map (·.2)

/-- `tileDidLoad` (header line 229).  Modelled from the spec: resolve a
Loading node to Loaded, notify the adapter, set `somethingHappened`;
any other call is ignored. -/
def tileDidLoad (id : Identifier) (s : CallbackState) : CallbackState :=
  match lookupNode s id with
  | some .loading =>
    { s with
      nodes := s.nodes.map (fun p => if p.1 = id then (p.1, .loaded) else p),
      somethingHappened := true,
      adapterLog := (id, true) :: s.adapterLog }
  | _ => s

/-- `tileDidNotLoad` (header line 232).  Modelled from the spec: resolve
a Loading node to Failed, notify the adapter, set `somethingHappened`;
any other call is ignored. -/
def tileDidNotLoad (id : Identifier) (s : CallbackState) : CallbackState :=
  match lookupNode s id with
  | some .loading =>
    { s with
      nodes := s.nodes.map (fun p => if p.1 = id then (p.1, .failed) else p),
      somethingHappened := true,
      adapterLog := (id, false) :: s.adapterLog }
  | _ => s

/-- `shutdown` (header line 249).  Modelled from the spec: clears the
candidate set and the tree. -/
def shutdown (s : CallbackState) : CallbackState :=
  { s with nodes := [], cands := [] }

theorem lookupNode_shutdown (s : CallbackState) (id : Identifier) :
    lookupNode (shutdown s) id = none := rfl

theorem tileDidLoad_not_loading {s : CallbackState} {id : Identifier}
    (h : lookupNode s id ≠ some .loading) : tileDidLoad id s = s := by
  unfold tileDidLoad
  cases hl : lookupNode s id with
  | none => rfl
  | some st =>
    cases st with
    | loading => exact absurd hl h
    | candidate => rfl
    | loaded => rfl
    | failed => rfl

theorem tileDidNotLoad_not_loading {s : CallbackState} {id : Identifier}
    (h : lookupNode s id ≠ some .loading) : tileDidNotLoad id s = s := by
  unfold tileDidNotLoad
  cases hl : lookupNode s id with
  | none => rfl
  | some st =>
    cases st with
    | loading => exact absurd hl h
    | candidate => rfl
    | loaded => rfl
    | failed => rfl

theorem find?_map_set (nodes : List (Identifier × NodeState))
    (id : Identifier) (st : NodeState)
    (h : (nodes.find? (fun p => decide (p.1 = id))).isSome = true) :
    ((nodes.map (fun p => if p.1 = id then (p.1, st) else p)).find?
        (fun p => decide (p.1 = id))).map (·.2) = some st := by
  induction nodes with
  | nil => simp at h
  | cons q rest ih =>
    by_cases hq : q.1 = id
    · simp [List.find?_cons, hq]
    · have hd : (decide (q.1 = id)) = false := by simp [hq]
      simp only [List.find?_cons, hd] at h
      simp only [List.map_cons, if_neg hq, List.find?_cons, hd]
      exact ih h

theorem lookupNode_after_load {s : CallbackState} {id : Identifier}
    (h : lookupNode s id = some .loading) :
    lookupNode (tileDidLoad id s) id = some .loaded := by
  unfold tileDidLoad
  rw [h]
  have hsome : (s.nodes.find? (fun p => decide (p.1 = id))).isSome = true := by
    unfold lookupNode at h
    cases hf : s.nodes.find? (fun p => decide (p.1 = id)) with
    | none => rw [hf] at h; simp at h
    | some q => simp [hf]
  exact find?_map_set s.nodes id .loaded hsome

theorem lookupNode_after_fail {s : CallbackState} {id : Identifier}
    (h : lookupNode s id = some .loading) :
    lookupNode (tileDidNotLoad id s) id = some .failed := by
  unfold tileDidNotLoad
  rw [h]
  have hsome : (s.nodes.find? (fun p => decide (p.1 = id))).isSome = true := by
    unfold lookupNode at h
    cases hf : s.nodes.find? (fun p => decide (p.1 = id)) with
    | none => rw [hf] at h; simp at h
    | some q => simp [hf]
  exact find?_map_set s.nodes id .failed hsome

/-- C6.  A `tileDidLoad`/`tileDidNotLoad` callback for an identifier
not currently Loading leaves the controller state unchanged; any
callback arriving after `shutdown()` is a safe no-op; and each Loading
node receives at most one resolving callback per Loading transition —
once a callback has resolved the node, every further callback for the
same identifier is ignored. -/
theorem callback_noop_spec :
    (∀ (s : CallbackState) (id : Identifier),
       lookupNode s id ≠ some .loading →
         tileDidLoad id s = s ∧ tileDidNotLoad id s = s) ∧
    (∀ (s : CallbackState) (id : Identifier),
       tileDidLoad id (shutdown s) = shutdown s ∧
       tileDidNotLoad id (shutdown s) = shutdown s) ∧
    (∀ (s : CallbackState) (id : Identifier),
       tileDidLoad id (tileDidLoad id s) = tileDidLoad id s ∧
       tileDidNotLoad id (tileDidLoad id s) = tileDidLoad id s ∧
       tileDidNotLoad id (tileDidNotLoad id s) = tileDidNotLoad id s ∧
       tileDidLoad id (tileDidNotLoad id s) = tileDidNotLoad id s) := by
  have hshut : ∀ (s : CallbackState) (id : Identifier),
      lookupNode (shutdown s) id ≠ some .loading := by
    intro s id
    rw [lookupNode_shutdown]
    exact fun hc => Option.noConfusion hc
  refine ⟨fun s id h => ⟨tileDidLoad_not_loading h, tileDidNotLoad_not_loading h⟩,
    fun s id => ⟨tileDidLoad_not_loading (hshut s id),
                 tileDidNotLoad_not_loading (hshut s id)⟩,
    fun s id => ?_⟩
  by_cases h : lookupNode s id = some .loading
  · have hload : lookupNode (tileDidLoad id s) id = some .loaded :=
      lookupNode_after_load h
    have hfail : lookupNode (tileDidNotLoad id s) id = some .failed :=
      lookupNode_after_fail h
    have h1 : lookupNode (tileDidLoad id s) id ≠ some .loading := by
      rw [hload]; exact fun hc => NodeState.noConfusion (Option.some.inj hc)
    have h2 : lookupNode (tileDidNotLoad id s) id ≠ some .loading := by
      rw [hfail]; exact fun hc => NodeState.noConfusion (Option.some.inj hc)
    exact ⟨tileDidLoad_not_loading h1, tileDidNotLoad_not_loading h1,
           tileDidNotLoad_not_loading h2, tileDidLoad_not_loading h2⟩
  · have ha := tileDidLoad_not_loading h
    have hb := tileDidNotLoad_not_loading h
    rw [ha, hb]
    exact ⟨ha, rfl, hb, ha⟩

/-- A concrete tree for the callback witness: the root is Loading, one
child is Loaded. -/
def cbW : CallbackState :=
  { nodes := [(⟨0, 0, 0⟩, .loading), (⟨1, 0, 0⟩, .loaded)],
    cands := [], somethingHappened := false, adapterLog := [] }

/-- Witness for `callback_noop_spec`: a callback for the Loaded (not
Loading) child of `cbW` is a no-op. -/
theorem callback_noop_spec_witness :
    lookupNode cbW ⟨1, 0, 0⟩ ≠ some .loading ∧
    tileDidLoad ⟨1, 0, 0⟩ cbW = cbW ∧ tileDidNotLoad ⟨1, 0, 0⟩ cbW = cbW :=
  ⟨by decide, (callback_noop_spec.1 cbW ⟨1, 0, 0⟩ (by decide)).1,
    (callback_noop_spec.1 cbW ⟨1, 0, 0⟩ (by decide)).2⟩

/-! ## refresh idempotence (C8)

Modelled from the spec: the body of `refresh` (declared at header line
252) is not among the sources.  Spec §4.5: "`refresh()`: marks every
known node for re-evaluation and re-fetch (full cache invalidation)".
With no intervening load completions the set of known nodes and the
data source's importance values (the view is unchanged) stay fixed, so
a second `refresh` rebuilds the candidate set from the same
identifiers. -/

/-- The controller state `refresh` touches: the known nodes of the tree
and the candidate set. -/
structure RefreshState where
  nodes : List (Identifier × NodeState)
  cands : List NodeInfo
deriving DecidableEq, Repr

/-- `refresh` (header line 252).  Modelled from the spec: every known
node is marked Candidate again and re-enters the importance-ordered
candidate set, with importance `imp` supplied by the data source for
the current view. -/
def refresh (imp : Identifier → ℚ) (s : RefreshState) : RefreshState :=
  { nodes := s.nodes.map (fun p => (p.1, .candidate)),
    cands := buildCandidateSet
      ((s.nodes.map (fun p => p.1)).map (fun i => ⟨i, imp i⟩)) }

/-- C8.  `refresh` is idempotent on tree shape: with no intervening
load completions, calling it twice produces the same candidate set (and
the same whole state) as calling it once. -/
theorem refresh_idempotent_spec (imp : Identifier → ℚ) (s : RefreshState) :
    (refresh imp (refresh imp s)).cands = (refresh imp s).cands ∧
    refresh imp (refresh imp s) = refresh imp s := by
  have h2 : refresh imp (refresh imp s) = refresh imp s := by
    simp only [refresh, List.map_map, RefreshState.mk.injEq]
    exact ⟨rfl, rfl⟩
  exact ⟨congrArg RefreshState.cands h2, h2⟩

end WhirlyKit
